import Mathlib

/-!
# Verification of the content-plugin installation/reconciliation engine

Shallow embedding of `lib/ContentPluginModule.js` (the current iteration of
`adapt-authoring-contentplugin`).  Plugin data objects are modelled by the
`PluginData` structure, the mongo collection by a list of such records, the
external collaborators (adapt-cli, fs-extra, zipper, the framework module,
the content collection) by oracle functions collected in `Env`, and every
side effect by an explicit `Effect` trace.  Semver version strings are
modelled by `Nat`: `semver.eq`/`semver.gt` define a strict total order on
valid semver strings, so equality/order on `Nat` is a faithful image;
`semver.satisfies` (range semantics) is kept abstract as an `Env` field.
-/

namespace ContentPlugin

/-- A plugin data object: both the shape of a catalog record (`contentplugins`
collection document) and of a `bower.json` / adapt-cli result object.
`keys` lists the object's own property names, as scanned by `addType`;
`isLocalInstall` is `none` when the property is absent from the object. -/
structure PluginData where
  id : String
  name : String
  version : Nat
  type : Option String
  keys : List String
  framework : Option String
  targetAttribute : Option String
  isLocalInstall : Option Bool
  deriving Repr, DecidableEq

/-- The `contentplugins` mongo collection (a unique index on `name` is set in
`init`, so reachable states have pairwise distinct names). -/
abbrev Catalog := List PluginData

/-- Error vocabulary of the module (`this.app.errors.CONTENTPLUGIN_*` plus the
implicit JS failure modes of the external calls).  `newerInstalled` stands for
the `CONTENTPLUGIN_NEWER_INSTALLED` throw site; note that in the source the
data of that error reads the undefined variable `newVersion`, so at runtime a
`ReferenceError` escapes from the same site — either way the thrown error is
distinct from `CONTENTPLUGIN_ALREADY_EXISTS`. -/
inductive CPError where
  | alreadyExists (name : String) (version : Nat)
  | newerInstalled (name : String)
  | incompatFramework (name : String) (version : Nat)
  | attrMissing (name : String)
  | attrClash (name : String) (attr : String)
  | typeError
  | cliFailure (msg : String)
  | fsFailure (msg : String)
  | dbFailure (msg : String)
  deriving Repr, DecidableEq

/-- One observable side effect: an external mutation, CLI invocation or log
line.  Pure reads (`find`, `readdir`, `readJson`, `pathExists`) are not
effects. -/
inductive Effect where
  | cliInstall (pluginStr : String)
  | cliUpdate (name : String)
  | cliUninstall (name : String)
  | unzip (zipPath : String)
  | fsMove (src dst : String)
  | fsCopy (src dst : String)
  | fsRemove (p : String)
  | dbInsert (d : PluginData)
  | dbReplaceByName (name : String) (d : PluginData)
  | dbReplaceById (id : String) (d : PluginData)
  | dbDelete (id : String)
  | logWarn (msg : String)
  | logError (msg : String)
  | logDebug (msg : String)
  deriving Repr, DecidableEq

/-- External collaborators and oracles: framework module, adapt-cli tasks,
filesystem, configuration, and the content collection backing
`getPluginUses`.  A field of type `… → Except CPError …` describes both the
value an external call resolves with and whether it rejects. -/
structure Env where
  fwVersion : String
  satisfies : String → Option String → Bool
  cliInstall : String → Except CPError PluginData
  cliUpdate : String → Except CPError PluginData
  cliUninstallOk : String → Except CPError Unit
  dbDeleteOk : String → Except CPError Unit
  unzip : String → Except CPError String
  readdir : String → Except CPError (List String)
  readJson : String → Except CPError PluginData
  moveOk : String → String → Except CPError Unit
  copyOk : String → String → Except CPError Unit
  removeOk : String → Except CPError Unit
  pathExists : String → Bool
  getPluginPath : Option String → String
  pluginInstallDir : String
  locaPluginsDir : String
  basename : String → String
  adaptDeps : List (String × String)
  contentUses : String → List String

/-- JS truthiness of an optional string property (absent and `""` are falsy). -/
def strTruthy : Option String → Bool
  | none => false
  | some s => s ≠ ""

/-- The four recognised plugin types scanned for by `addType`. -/
def pluginTypes : List String := ["component", "extension", "menu", "theme"]

/-- `addType` (ContentPluginModule.js:382-387): if `pluginData.type` is falsy,
set it to the first own key among the known type names (or leave it unset). -/
def addType (d : PluginData) : PluginData :=
  if strTruthy d.type then d
  else { d with type := d.keys.find? (fun k => pluginTypes.contains k) }

/-- `this.find({ name })` then taking the first result. -/
def findByName (c : Catalog) (n : String) : Option PluginData :=
  c.find? (fun r => r.name == n)

/-- `this.find({ _id })` then taking the first result (`getPluginById`). -/
def findById (c : Catalog) (i : String) : Option PluginData :=
  c.find? (fun r => r.id == i)

/-- `this.replace({ name }, d)`: replace the (first) record matching `name`. -/
def replaceByName : Catalog → String → PluginData → Catalog
  | [], _, _ => []
  | r :: rs, n, d => if r.name = n then d :: rs else r :: replaceByName rs n d

/-- `this.replace({ _id }, d)`: replace the (first) record matching `_id`;
mongo keeps the original `_id` on a replace. -/
def replaceById : Catalog → String → PluginData → Catalog
  | [], _, _ => []
  | r :: rs, i, d => if r.id = i then { d with id := i } :: rs else r :: replaceById rs i d

/-- `insertToDatabase` (ContentPluginModule.js:362-368): upsert by `name` —
replace the existing record if one exists, else insert. -/
def insertToDatabase (c : Catalog) (d : PluginData) : List Effect × Catalog :=
  match findByName c d.name with
  | some _ => ([.dbReplaceByName d.name d], replaceByName c d.name d)
  | none => ([.dbInsert d], c ++ [d])

/-- The first two throws of `checkCompatibility` (ContentPluginModule.js:399-404):
`ALREADY_EXISTS` when an installed record has the same semver, the
`NEWER_INSTALLED` site when the installed semver is strictly greater. -/
def versionGate (installed : Option PluginData) (name : String) (version : Nat) :
    Except CPError Unit :=
  match installed with
  | some p =>
    if p.version = version then .error (.alreadyExists name version)
    else if p.version > version then .error (.newerInstalled name)
    else .ok ()
  | none => .ok ()

/-- The remaining throws of `checkCompatibility` (ContentPluginModule.js:405-415):
framework range check, targetAttribute presence, targetAttribute clash
(`find({ targetAttribute, name: { $ne: name } })`). -/
def postVersionChecks (env : Env) (c : Catalog) (d : PluginData) : Except CPError Unit :=
  if env.satisfies env.fwVersion d.framework = false then
    .error (.incompatFramework d.name d.version)
  else if strTruthy d.targetAttribute = false then
    .error (.attrMissing d.name)
  else
    match c.find? (fun r => r.targetAttribute == d.targetAttribute && r.name != d.name) with
    | some q => .error (.attrClash q.name (d.targetAttribute.getD ""))
    | none => .ok ()

/-- `checkCompatibility` (ContentPluginModule.js:396-415): the version gate on
the record found by name, then the framework/attribute checks, each throw
short-circuiting the rest. -/
def checkCompatibility (env : Env) (c : Catalog) (d : PluginData) : Except CPError Unit :=
  match versionGate (findByName c d.name) d.name d.version with
  | .error e => .error e
  | .ok _ => postVersionChecks env c d

/-- `` `${plugin}${version === '*' ? '' : `@${version}`}` `` (ContentPluginModule.js:285). -/
def pluginStrOf (plugin version : String) : String :=
  plugin ++ (if version = "*" then "" else "@" ++ version)

/-- `installPlugin` (ContentPluginModule.js:284-289): run the adapt-cli
`install` task, tag the result with `addType`, set `isLocalInstall = false`,
and upsert it into the catalog.  No compatibility/version precondition is
checked on this path. -/
def installPlugin (env : Env) (c : Catalog) (plugin version : String) :
    Except CPError PluginData × List Effect × Catalog :=
  let pluginStr := pluginStrOf plugin version
  match env.cliInstall pluginStr with
  | .error e => (.error e, [.cliInstall pluginStr], c)
  | .ok raw =>
    let d := { addType raw with isLocalInstall := some false }
    let (ieffs, c') := insertToDatabase c d
    (.ok d, .cliInstall pluginStr :: ieffs, c')

/-- Options object of `manualInstallPlugin` (defaults to `{ isZip: true }`). -/
structure ManualOpts where
  isZip : Bool
  deriving Repr, DecidableEq

/-- The `try` block of `manualInstallPlugin` starting after `pluginSrc` is
fixed (ContentPluginModule.js:305-322): read the directory (unwrapping a
single nested root folder), read `bower.json`, tag the type, set
`isLocalInstall = true`, run `checkCompatibility`, move the source to the
framework plugin directory (when distinct), copy it to the configured
`pluginInstallDir` cache, and upsert the record. -/
def manualInstallFrom (env : Env) (c : Catalog) (pluginSrc : String) :
    Except CPError PluginData × List Effect × Catalog :=
  match env.readdir pluginSrc with
  | .error e => (.error e, [], c)
  | .ok contents =>
    let rootDir := if contents.length = 1 then pluginSrc ++ "/" ++ contents.headD "" else pluginSrc
    match env.readJson (rootDir ++ "/bower.json") with
    | .error e => (.error e, [], c)
    | .ok raw =>
      let d0 := addType raw
      let pluginDest := env.getPluginPath d0.type ++ "/" ++ d0.name
      let d := { d0 with isLocalInstall := some true }
      match checkCompatibility env c d with
      | .error e => (.error e, [], c)
      | .ok _ =>
        let moveEffs : List Effect :=
          if pluginSrc ≠ pluginDest then [.fsMove pluginSrc pluginDest] else []
        match (if pluginSrc ≠ pluginDest then env.moveOk pluginSrc pluginDest else .ok ()) with
        | .error e => (.error e, moveEffs, c)
        | .ok _ =>
          let cacheDest := env.pluginInstallDir ++ "/" ++ d.name
          match env.copyOk pluginDest cacheDest with
          | .error e => (.error e, moveEffs ++ [.fsCopy pluginDest cacheDest], c)
          | .ok _ =>
            let (ieffs, c') := insertToDatabase c d
            (.ok d, moveEffs ++ [.fsCopy pluginDest cacheDest] ++ ieffs, c')

/-- The whole `try` block of `manualInstallPlugin`
(ContentPluginModule.js:299-322): when `options.isZip`, first unzip and
derive `pluginSrc` from the zip's basename, then continue as
`manualInstallFrom`. -/
def manualInstallBody (env : Env) (c : Catalog) (zipPath : String) (opts : ManualOpts) :
    Except CPError PluginData × List Effect × Catalog :=
  if opts.isZip then
    match env.unzip zipPath with
    | .error e => (.error e, [.unzip zipPath], c)
    | .ok unzipPath =>
      let pluginSrc := unzipPath ++ "/" ++ env.basename zipPath
      let (res, effs, c') := manualInstallFrom env c pluginSrc
      (res, .unzip zipPath :: effs, c')
  else
    manualInstallFrom env c zipPath

/-- The `catch` block's cleanup (ContentPluginModule.js:324-328): when
`options.isZip`, attempt `fs.remove` on the unzip directory and on
`pluginSrc` (when the unzip itself had failed, `unzipPath` is `undefined`
and removing it rejects); a cleanup failure is only logged at debug level. -/
def manualCleanup (env : Env) (zipPath : String) : List Effect :=
  match env.unzip zipPath with
  | .ok unzipPath =>
    let pluginSrc := unzipPath ++ "/" ++ env.basename zipPath
    [.fsRemove unzipPath, .fsRemove pluginSrc] ++
      (match env.removeOk unzipPath, env.removeOk pluginSrc with
       | .ok _, .ok _ => []
       | _, _ => [.logDebug "remove failed"])
  | .error _ => [.fsRemove zipPath, .logDebug "remove failed"]

/-- `manualInstallPlugin` (ContentPluginModule.js:296-331): run the body; on
any error, attempt the zip cleanup (whose own failure is swallowed) and
rethrow the original error. -/
def manualInstallPlugin (env : Env) (c : Catalog) (zipPath : String) (opts : ManualOpts) :
    Except CPError PluginData × List Effect × Catalog :=
  let (res, effs, c') := manualInstallBody env c zipPath opts
  match res with
  | .ok d => (.ok d, effs, c')
  | .error e =>
    if opts.isZip then (.error e, effs ++ manualCleanup env zipPath, c')
    else (.error e, effs, c')

/-- `getPluginUses` (ContentPluginModule.js:268-278): destructure the record
found by `_id` (throwing a `TypeError` when there is none), then aggregate
the course titles of the config documents whose `_enabledPlugins` contain the
plugin's name.  The aggregation itself is external and read-only, modelled by
the `contentUses` oracle. -/
def getPluginUses (env : Env) (c : Catalog) (id : String) : Except CPError (List String) :=
  match findById c id with
  | none => .error .typeError
  | some p => .ok (env.contentUses p.name)

/-- `uninstallPlugin` (ContentPluginModule.js:345-349): look the record up by
`_id` (a missing record makes the later `pluginData.name` access throw), then
`await this.delete({ _id })`, then run the adapt-cli `uninstall` task.  The
steps are sequential: a rejected delete prevents the CLI call. -/
def uninstallPlugin (env : Env) (c : Catalog) (id : String) :
    Except CPError Unit × List Effect × Catalog :=
  match findById c id with
  | none => (.error .typeError, [], c)
  | some p =>
    match env.dbDeleteOk id with
    | .error e => (.error e, [.dbDelete id], c)
    | .ok _ =>
      let c' := c.filter (fun r => r.id != id)
      match env.cliUninstallOk p.name with
      | .error e => (.error e, [.dbDelete id, .cliUninstall p.name], c')
      | .ok _ => (.ok (), [.dbDelete id, .cliUninstall p.name], c')

/-- `updatePlugin` (ContentPluginModule.js:336-340): look the record up by
`_id`, run the adapt-cli `update` task on its name, and replace the record by
`_id` with the `addType`-tagged CLI result (which carries whatever fields the
CLI returned — in particular no `isLocalInstall`). -/
def updatePlugin (env : Env) (c : Catalog) (id : String) :
    Except CPError PluginData × List Effect × Catalog :=
  match findById c id with
  | none => (.error .typeError, [], c)
  | some p =>
    match env.cliUpdate p.name with
    | .error e => (.error e, [.cliUpdate p.name], c)
    | .ok raw =>
      let d := addType raw
      (.ok d, [.cliUpdate p.name, .dbReplaceById id d], replaceById c id d)

/-- The name-keyed map `dbPlugins` built by
`(await this.find()).reduce((m,p) => Object.assign(m, { [p.name]: p }), {})`
(ContentPluginModule.js:113): a later record with the same name overwrites an
earlier one. -/
def dbPluginsMap (c : Catalog) (n : String) : Option PluginData :=
  c.reverse.find? (fun r => r.name == n)

/-- The framework-directory `bower.json` path read for a managed dependency
(ContentPluginModule.js:123). -/
def bowerPath (env : Env) (p : PluginData) (name : String) : String :=
  env.getPluginPath p.type ++ "/" ++ name ++ "/bower.json"

/-- Log text of the version-mismatch warning (ContentPluginModule.js:125). -/
def mismatchMsg (name : String) : String :=
  "local framework copy of " ++ name ++ " does not match DB version, please reinstall"

/-- Log text of the missing-local-source error (ContentPluginModule.js:134). -/
def missingSrcMsg (name : String) : String :=
  "plugin " ++ name ++ " exists in the DB but doesn't have local source files, please reinstall"

/-- Log text of the local-reinstall failure (ContentPluginModule.js:140). -/
def reinstallFailMsg (name : String) : String :=
  "couldn't reinstall locally installed plugin " ++ name

/-- Whether an error is `CONTENTPLUGIN_ALREADY_EXISTS` (the `e.code` checks at
ContentPluginModule.js:140 and 149). -/
def isAlreadyExists : CPError → Bool
  | .alreadyExists _ _ => true
  | _ => false

/-- The managed-dependency scan of `installPlugins`
(ContentPluginModule.js:116-130): for each `adapt.json` dependency, queue it
when absent from the catalog; otherwise try to read the framework copy's
`bower.json` — a differing version only logs a warning, while a failed read
queues `[name, p.version]`. -/
def scanDeps (env : Env) (dbp : String → Option PluginData) :
    List (String × String) → List (String × String) × List Effect
  | [] => ([], [])
  | (name, version) :: rest =>
    let (ti, effs) := scanDeps env dbp rest
    match dbp name with
    | none => ((name, version) :: ti, effs)
    | some p =>
      match env.readJson (bowerPath env p name) with
      | .ok q =>
        (ti, (if q.version ≠ p.version then [Effect.logWarn (mismatchMsg name)] else []) ++ effs)
      | .error _ => ((name, toString p.version) :: ti, effs)

/-- `Object.keys` order of the `dbPlugins` map: first occurrence of each name. -/
def namesInOrder : Catalog → List String → List String
  | [], _ => []
  | p :: ps, seen =>
    if seen.contains p.name then namesInOrder ps seen
    else p.name :: namesInOrder ps (p.name :: seen)

/-- `Object.values(dbPlugins)`: for each name (in first-occurrence order) the
last record carrying it. -/
def objectValuesByName (c : Catalog) : List PluginData :=
  (namesInOrder c []).filterMap (dbPluginsMap c)

/-- One iteration of the local-plugin reconciliation
(ContentPluginModule.js:131-142): when the cached copy under
`locaPluginsDir` is missing, log an error and stop; otherwise run
`checkCompatibility` and copy the cache into the framework plugin directory,
logging (except for `ALREADY_EXISTS`) any failure.  The catalog is never
touched on this branch. -/
def reconcileLocalPlugin (env : Env) (c : Catalog) (p : PluginData) : List Effect :=
  let cachePath := env.locaPluginsDir ++ "/" ++ p.name
  if env.pathExists cachePath = false then
    [.logError (missingSrcMsg p.name)]
  else
    match checkCompatibility env c p with
    | .error e => if isAlreadyExists e then [] else [.logError (reinstallFailMsg p.name)]
    | .ok _ =>
      let dst := env.getPluginPath p.type ++ "/" ++ p.name
      match env.copyOk cachePath dst with
      | .ok _ => [.fsCopy cachePath dst]
      | .error e =>
        .fsCopy cachePath dst ::
          (if isAlreadyExists e then [] else [.logError (reinstallFailMsg p.name)])

/-- The final loop of `installPlugins` (ContentPluginModule.js:143-151):
sequentially `installPlugin` each queued `[name, version]`, logging success
at debug level and non-`ALREADY_EXISTS` failures as warnings. -/
def installQueued (env : Env) : Catalog → List (String × String) → List Effect × Catalog
  | c, [] => ([], c)
  | c, (name, version) :: rest =>
    let (res, effs, c') := installPlugin env c name version
    let logEff : List Effect :=
      match res with
      | .ok _ => [.logDebug ("successfully installed " ++ name ++ "@" ++ version)]
      | .error e => if isAlreadyExists e then [] else [.logWarn ("couldn't install " ++ name)]
    let (effs2, c'') := installQueued env c' rest
    (effs ++ logEff ++ effs2, c'')

/-- `installPlugins` (ContentPluginModule.js:111-152), the startup
reconciliation: scan the `adapt.json` managed dependencies against the
catalog and the framework directory, reconcile the `isLocalInstall` records
from their local cache, then install the queued plugins. -/
def installPlugins (env : Env) (c : Catalog) : List Effect × Catalog :=
  let (toInstall, effsA) := scanDeps env (dbPluginsMap c) env.adaptDeps
  let locals := (objectValuesByName c).filter (fun p => p.isLocalInstall.getD false)
  let effsB := (locals.map (reconcileLocalPlugin env c)).flatten
  let (effsC, c') := installQueued env c toInstall
  (effsA ++ effsB ++ effsC, c')

/-- The document a catalog-write effect carries, if any. -/
def writtenDoc : Effect → Option PluginData
  | .dbInsert d => some d
  | .dbReplaceByName _ d => some d
  | .dbReplaceById _ d => some d
  | _ => none

/-- The catalog documents written (inserted or used as replacement) in a
trace. -/
def writtenDocs (l : List Effect) : List PluginData :=
  l.filterMap writtenDoc

/-- Number of catalog records with a given name. -/
def countName (c : Catalog) (n : String) : Nat :=
  (c.filter (fun r => r.name == n)).length

/-- Whether an effect is a catalog delete. -/
def isDbDelete : Effect → Bool
  | .dbDelete _ => true
  | _ => false

/-! ## Concrete fixtures used by counterexamples and witnesses -/

/-- A default environment: framework 5.0.0, every range with nonempty text
satisfied, all filesystem writes succeeding, no CLI behaviour configured. -/
def baseEnv : Env where
  fwVersion := "5.0.0"
  satisfies := fun _ r => strTruthy r
  cliInstall := fun _ => .error (.cliFailure "unconfigured")
  cliUpdate := fun _ => .error (.cliFailure "unconfigured")
  cliUninstallOk := fun _ => .ok ()
  dbDeleteOk := fun _ => .ok ()
  unzip := fun _ => .error (.fsFailure "unconfigured")
  readdir := fun _ => .error (.fsFailure "unconfigured")
  readJson := fun _ => .error (.fsFailure "unconfigured")
  moveOk := fun _ _ => .ok ()
  copyOk := fun _ _ => .ok ()
  removeOk := fun _ => .ok ()
  pathExists := fun _ => true
  getPluginPath := fun t => "fw/src/" ++ t.getD "unknown"
  pluginInstallDir := "plugins"
  locaPluginsDir := "local-plugins"
  basename := fun _ => "plug"
  adaptDeps := []
  contentUses := fun _ => []

/-- An installed registry plugin `adapt-a@2`. -/
def recA : PluginData :=
  { id := "1", name := "adapt-a", version := 2, type := some "extension", keys := [],
    framework := some "^5", targetAttribute := some "_a", isLocalInstall := some false }

/-! ## Lemmas about `checkCompatibility` -/

instance {ε α : Type} [DecidableEq ε] [DecidableEq α] : DecidableEq (Except ε α) := fun a b =>
  match a, b with
  | .error x, .error y =>
    if h : x = y then .isTrue (h ▸ rfl) else .isFalse (fun hc => h (Except.error.inj hc))
  | .ok x, .ok y =>
    if h : x = y then .isTrue (h ▸ rfl) else .isFalse (fun hc => h (Except.ok.inj hc))
  | .error _, .ok _ => .isFalse (fun hc => Except.noConfusion hc)
  | .ok _, .error _ => .isFalse (fun hc => Except.noConfusion hc)

lemma postVersionChecks_ne_alreadyExists (env : Env) (c : Catalog) (d : PluginData)
    (n : String) (v : Nat) : postVersionChecks env c d ≠ .error (.alreadyExists n v) := by
  unfold postVersionChecks
  split
  · simp
  · split
    · simp
    · split <;> simp

lemma checkCompatibility_none (env : Env) (c : Catalog) (d : PluginData)
    (h : findByName c d.name = none) :
    checkCompatibility env c d = postVersionChecks env c d := by
  unfold checkCompatibility versionGate
  rw [h]

lemma checkCompatibility_eqVersion (env : Env) (c : Catalog) (d : PluginData) (p : PluginData)
    (h : findByName c d.name = some p) (hv : p.version = d.version) :
    checkCompatibility env c d = .error (.alreadyExists d.name d.version) := by
  unfold checkCompatibility versionGate
  rw [h]
  simp [hv]

lemma checkCompatibility_newer (env : Env) (c : Catalog) (d : PluginData) (p : PluginData)
    (h : findByName c d.name = some p) (hv : d.version < p.version) :
    checkCompatibility env c d = .error (.newerInstalled d.name) := by
  have h1 : ¬(p.version = d.version) := by omega
  unfold checkCompatibility versionGate
  rw [h]
  simp [h1, hv]

lemma checkCompatibility_older (env : Env) (c : Catalog) (d : PluginData) (p : PluginData)
    (h : findByName c d.name = some p) (hv : p.version < d.version) :
    checkCompatibility env c d = postVersionChecks env c d := by
  have h1 : ¬(p.version = d.version) := by omega
  have h2 : ¬(p.version > d.version) := by omega
  unfold checkCompatibility versionGate
  rw [h]
  simp [h1, h2]

/-! ## C3 -/

/-- C3: the claim says the installability check fails with `AlreadyExists`
exactly when a record with the candidate's name exists, the candidate's
version is less than or equal to the existing one, and `force` is false.
Counterexample: with `adapt-a@2` installed and candidate version `1`
(`candidateVersion <= existing.version`, and no `force` flag exists in the
code at all), `checkCompatibility` fails with the `NEWER_INSTALLED` error,
not with `ALREADY_EXISTS`. -/
theorem C3_counterexample :
    checkCompatibility baseEnv [recA] { recA with version := 1 } =
      .error (.newerInstalled "adapt-a")
    ∧ checkCompatibility baseEnv [recA] { recA with version := 1 } ≠
      .error (.alreadyExists "adapt-a" 1) := by
  constructor
  · decide
  · decide

/-- C3 (amended): `checkCompatibility` fails with `AlreadyExists` exactly when
a record with the candidate's name exists and its version is EQUAL to the
candidate's; when the existing version is strictly greater it fails with the
distinct `NEWER_INSTALLED` error; there is no `force` flag; when no record
with the name exists the version gate passes and only the later
framework/attribute checks remain. -/
theorem C3_checkInstallable_amended (env : Env) (c : Catalog) (d : PluginData) :
    (checkCompatibility env c d = .error (.alreadyExists d.name d.version)
      ↔ ∃ p, findByName c d.name = some p ∧ p.version = d.version)
    ∧ (∀ p, findByName c d.name = some p → d.version < p.version →
        checkCompatibility env c d = .error (.newerInstalled d.name))
    ∧ (findByName c d.name = none →
        checkCompatibility env c d = postVersionChecks env c d) := by
  refine ⟨⟨?_, ?_⟩, ?_, fun h => checkCompatibility_none env c d h⟩
  · intro hx
    rcases h : findByName c d.name with _ | p
    · rw [checkCompatibility_none env c d h] at hx
      exact absurd hx (postVersionChecks_ne_alreadyExists env c d _ _)
    · rcases lt_trichotomy p.version d.version with hv | hv | hv
      · rw [checkCompatibility_older env c d p h hv] at hx
        exact absurd hx (postVersionChecks_ne_alreadyExists env c d _ _)
      · exact ⟨p, rfl, hv⟩
      · rw [checkCompatibility_newer env c d p h hv] at hx
        simp at hx
  · rintro ⟨p, h, hv⟩
    exact checkCompatibility_eqVersion env c d p h hv
  · intro p h hv
    exact checkCompatibility_newer env c d p h hv

/-- C3 witness: the amended characterization applied to the concrete
`adapt-a@2` catalog and candidate version `1`. -/
theorem C3_amended_witness :
    checkCompatibility baseEnv [recA] { recA with version := 1 } =
      .error (.newerInstalled "adapt-a") :=
  (C3_checkInstallable_amended baseEnv [recA] { recA with version := 1 }).2.1
    recA (by decide) (by decide)

/-! ## Lemmas about `manualInstallFrom` -/

lemma manualInstallFrom_checkFail (env : Env) (c : Catalog) (pluginSrc : String)
    (contents : List String) (raw : PluginData) (e : CPError)
    (hdir : env.readdir pluginSrc = .ok contents)
    (hjson : env.readJson
      ((if contents.length = 1 then pluginSrc ++ "/" ++ contents.headD "" else pluginSrc)
        ++ "/bower.json") = .ok raw)
    (hfail : checkCompatibility env c { addType raw with isLocalInstall := some true } =
      .error e) :
    manualInstallFrom env c pluginSrc = (.error e, [], c) := by
  unfold manualInstallFrom
  rw [hdir]
  simp only [hjson, hfail]

/-! ## C1 -/

/-- Raw adapt-cli result object for installing `adapt-a@1`. -/
def rawA1 : PluginData :=
  { id := "9", name := "adapt-a", version := 1, type := some "extension", keys := [],
    framework := some "^5", targetAttribute := some "_a", isLocalInstall := none }

/-- Environment whose CLI `install` task succeeds for `adapt-a@1`. -/
def envC1 : Env :=
  { baseEnv with cliInstall := fun s =>
      if s = "adapt-a@1" then .ok rawA1 else .error (.cliFailure "unexpected") }

/-- The record `installPlugin` upserts after the CLI returns `rawA1`. -/
def dC1 : PluginData := { rawA1 with isLocalInstall := some false }

/-- C1: the claim says that when a catalog record already exists with
`existing.version >= candidateVersion` (and no force), `installPlugin` fails
with `AlreadyExists` and the CLI install task is never invoked.
Counterexample: with `adapt-a@2` installed and candidate `adapt-a@1`
(existing version `2 >= 1`, and the code has no force flag), `installPlugin`
invokes the CLI install task, does not fail at all, and replaces the catalog
record — `installPlugin` performs no precondition check whatsoever. -/
theorem C1_counterexample :
    installPlugin envC1 [recA] "adapt-a" "1" =
      (.ok dC1, [.cliInstall "adapt-a@1", .dbReplaceByName "adapt-a" dC1], [dC1]) := by
  decide

/-- C1 (amended): `installPlugin` (the registry install path) invokes the CLI
install task unconditionally as its first action, whatever the catalog
contains; the existence/version precondition (`checkCompatibility`) guards
only the manual-archive install path, where its failure short-circuits the
operation before any framework-directory move/copy and before any catalog
write. -/
theorem C1_installPrecondition_amended (env : Env) (c zc : Catalog)
    (plugin version pluginSrc : String) (contents : List String) (raw : PluginData) (e : CPError)
    (hdir : env.readdir pluginSrc = .ok contents)
    (hjson : env.readJson
      ((if contents.length = 1 then pluginSrc ++ "/" ++ contents.headD "" else pluginSrc)
        ++ "/bower.json") = .ok raw)
    (hfail : checkCompatibility env zc { addType raw with isLocalInstall := some true } =
      .error e) :
    (installPlugin env c plugin version).2.1.head? =
      some (.cliInstall (pluginStrOf plugin version))
    ∧ manualInstallFrom env zc pluginSrc = (.error e, [], zc) := by
  constructor
  · simp only [installPlugin]
    cases env.cliInstall (pluginStrOf plugin version) <;> rfl
  · exact manualInstallFrom_checkFail env zc pluginSrc contents raw e hdir hjson hfail

/-- Raw `bower.json` data for an `adapt-a` archive at the already-installed
version `2`. -/
def rawA2 : PluginData := { rawA1 with version := 2, id := "10" }

/-- Environment serving an unzipped `adapt-a@2` archive at `/src`. -/
def envW1 : Env :=
  { baseEnv with
      readdir := fun s => if s = "/src" then .ok ["pkg"] else .error (.fsFailure "noent"),
      readJson := fun s =>
        if s = "/src/pkg/bower.json" then .ok rawA2 else .error (.fsFailure "noent") }

/-- C1 witness: the amended statement applied to a concrete registry install
and a concrete manual install whose compatibility check fails with
`ALREADY_EXISTS`. -/
theorem C1_amended_witness :
    (installPlugin envW1 [recA] "adapt-a" "2").2.1.head? =
      some (.cliInstall (pluginStrOf "adapt-a" "2"))
    ∧ manualInstallFrom envW1 [recA] "/src" =
      (.error (.alreadyExists "adapt-a" 2), [], [recA]) :=
  C1_installPrecondition_amended envW1 [recA] [recA] "adapt-a" "2" "/src" ["pkg"] rawA2
    (.alreadyExists "adapt-a" 2) (by decide) (by decide) (by decide)

/-! ## C2 -/

/-- Environment in which one content document (course "Course 1") references
`adapt-a` via `_enabledPlugins`. -/
def envC2 : Env :=
  { baseEnv with contentUses := fun n => if n = "adapt-a" then ["Course 1"] else [] }

/-- C2: the claim says an uninstall of a plugin with at least one referencing
content document fails with `InUse`, keeps the record and never calls the CLI
uninstall.  Counterexample: with the usage index reporting one referencing
course for `adapt-a`, `uninstallPlugin` succeeds anyway: the record is
deleted and the CLI uninstall task runs — `uninstallPlugin` never consults
`getPluginUses` (which only backs the read-only `/:_id/uses` route). -/
theorem C2_counterexample :
    getPluginUses envC2 [recA] "1" = .ok ["Course 1"]
    ∧ uninstallPlugin envC2 [recA] "1" =
      (.ok (), [.dbDelete "1", .cliUninstall "adapt-a"], []) := by
  constructor
  · decide
  · decide

/-- C2 (amended): `uninstallPlugin` is entirely independent of the usage
index — its outcome is unchanged under any `contentUses` oracle — and when
the record exists and the catalog delete succeeds, it deletes the record and
invokes the CLI uninstall regardless of how many content documents reference
the plugin. -/
theorem C2_uninstallInUse_amended (env : Env) (c : Catalog) (id : String) :
    (∀ f, uninstallPlugin { env with contentUses := f } c id = uninstallPlugin env c id)
    ∧ (∀ p, findById c id = some p → env.dbDeleteOk id = .ok () →
        (uninstallPlugin env c id).2.1 = [.dbDelete id, .cliUninstall p.name]
        ∧ (uninstallPlugin env c id).2.2 = c.filter (fun r => r.id != id)) := by
  constructor
  · intro f; rfl
  · intro p hp hdel
    unfold uninstallPlugin
    simp only [hp, hdel]
    cases h : env.cliUninstallOk p.name <;> exact ⟨rfl, rfl⟩

/-- C2 witness: the amended statement at the concrete in-use catalog. -/
theorem C2_amended_witness :
    (uninstallPlugin envC2 [recA] "1").2.1 = [.dbDelete "1", .cliUninstall "adapt-a"]
    ∧ (uninstallPlugin envC2 [recA] "1").2.2 = [recA].filter (fun r => r.id != "1") :=
  (C2_uninstallInUse_amended envC2 [recA] "1").2 recA (by decide) (by decide)

/-! ## C7 -/

/-- Environment whose catalog delete round-trip fails. -/
def envC7 : Env :=
  { baseEnv with dbDeleteOk := fun _ => .error (.dbFailure "db down") }

/-- Environment whose CLI uninstall task fails. -/
def envC7b : Env :=
  { baseEnv with cliUninstallOk := fun _ => .error (.cliFailure "cli down") }

/-- C7: the claim says uninstall first deregisters the plugin's schema
contributions and then attempts both the CLI uninstall and the catalog
delete even if one of them fails.  Counterexample: when the catalog delete
fails, the CLI uninstall is never attempted (the trace holds only the failed
delete and the record survives) — the two steps are sequential, not
best-effort concurrent, and no schema-deregistration step exists in
`uninstallPlugin` at all. -/
theorem C7_counterexample :
    uninstallPlugin envC7 [recA] "1" =
      (.error (.dbFailure "db down"), [.dbDelete "1"], [recA]) := by
  decide

/-- C7 (amended): `uninstallPlugin` deregisters no schemas; it deletes the
catalog record first and only then invokes the CLI uninstall: a failed
delete prevents the CLI call and leaves the catalog unchanged, while a
failed CLI uninstall happens after the record is already deleted (the
deletion is not rolled back). -/
theorem C7_uninstallSequence_amended (env : Env) (c : Catalog) (id : String)
    (p : PluginData) (e : CPError) :
    (findById c id = some p → env.dbDeleteOk id = .error e →
      uninstallPlugin env c id = (.error e, [.dbDelete id], c))
    ∧ (findById c id = some p → env.dbDeleteOk id = .ok () →
       env.cliUninstallOk p.name = .error e →
      uninstallPlugin env c id =
        (.error e, [.dbDelete id, .cliUninstall p.name], c.filter (fun r => r.id != id)))
    ∧ (findById c id = some p → env.dbDeleteOk id = .ok () →
       env.cliUninstallOk p.name = .ok () →
      uninstallPlugin env c id =
        (.ok (), [.dbDelete id, .cliUninstall p.name], c.filter (fun r => r.id != id))) := by
  refine ⟨?_, ?_, ?_⟩
  · intro hp hdel
    unfold uninstallPlugin
    simp only [hp, hdel]
  · intro hp hdel hcli
    unfold uninstallPlugin
    simp only [hp, hdel, hcli]
  · intro hp hdel hcli
    unfold uninstallPlugin
    simp only [hp, hdel, hcli]

/-- C7 witness: the amended statement at a concrete catalog whose CLI
uninstall fails after a successful delete. -/
theorem C7_amended_witness :
    uninstallPlugin envC7b [recA] "1" =
      (.error (.cliFailure "cli down"), [.dbDelete "1", .cliUninstall "adapt-a"],
        [recA].filter (fun r => r.id != "1")) :=
  (C7_uninstallSequence_amended envC7b [recA] "1" recA (.cliFailure "cli down")).2.1
    (by decide) (by decide) (by decide)

/-! ## Shape lemmas for the manual install path -/

lemma checkCompatibility_gatePass (env : Env) (c : Catalog) (d : PluginData)
    (hvg : versionGate (findByName c d.name) d.name d.version = .ok ()) :
    checkCompatibility env c d = postVersionChecks env c d := by
  unfold checkCompatibility
  rw [hvg]

lemma manualInstallFrom_shape (env : Env) (c : Catalog) (s : String) :
    ((manualInstallFrom env c s).2.2 = c ∧ writtenDocs (manualInstallFrom env c s).2.1 = [])
    ∨ ∃ d, (manualInstallFrom env c s).1 = .ok d := by
  simp only [manualInstallFrom]
  split
  · left; exact ⟨rfl, rfl⟩
  · split
    · left; exact ⟨rfl, rfl⟩
    · split
      · left; exact ⟨rfl, rfl⟩
      · split
        · left
          refine ⟨rfl, ?_⟩
          unfold writtenDocs
          split <;> rfl
        · split
          · left
            refine ⟨rfl, ?_⟩
            unfold writtenDocs
            split <;> rfl
          · right; exact ⟨_, rfl⟩

lemma writtenDocs_manualCleanup (env : Env) (z : String) :
    writtenDocs (manualCleanup env z) = [] := by
  simp only [manualCleanup]
  split
  · split <;> rfl
  · rfl

lemma manualInstallBody_shape (env : Env) (c : Catalog) (z : String) (o : ManualOpts) :
    ((manualInstallBody env c z o).2.2 = c ∧ writtenDocs (manualInstallBody env c z o).2.1 = [])
    ∨ ∃ d, (manualInstallBody env c z o).1 = .ok d := by
  unfold manualInstallBody
  split
  · split
    · left; exact ⟨rfl, rfl⟩
    · rcases manualInstallFrom_shape env c _ with ⟨h1, h2⟩ | ⟨d, h⟩
      · left; exact ⟨h1, h2⟩
      · right; exact ⟨d, h⟩
  · exact manualInstallFrom_shape env c z

/-! ## C4 -/

/-- Environment serving a zip at `/up/plug.zip` that unzips to `/tmp/unz`
with a single nested root folder holding an `adapt-a@2` `bower.json`. -/
def envC4 : Env :=
  { baseEnv with
      unzip := fun z => if z = "/up/plug.zip" then .ok "/tmp/unz" else .error (.fsFailure "x"),
      basename := fun _ => "plug",
      readdir := fun s => if s = "/tmp/unz/plug" then .ok ["nested"] else .error (.fsFailure "x"),
      readJson := fun s =>
        if s = "/tmp/unz/plug/nested/bower.json" then .ok rawA2 else .error (.fsFailure "x") }

/-- C4: the claim says no catalog or filesystem mutation happens before all
four validity checks pass.  Counterexample: installing the `adapt-a@2`
archive while `adapt-a@2` is already catalogued fails at the very first
check (`ALREADY_EXISTS`), yet the filesystem was already mutated before any
check ran: the archive was extracted to `/tmp/unz` (and the extracted files
then removed again by the cleanup).  Only the catalog and the framework
plugin directory stay untouched. -/
theorem C4_counterexample :
    manualInstallPlugin envC4 [recA] "/up/plug.zip" ⟨true⟩ =
      (.error (.alreadyExists "adapt-a" 2),
        [.unzip "/up/plug.zip", .fsRemove "/tmp/unz", .fsRemove "/tmp/unz/plug"],
        [recA]) := by
  decide

/-- C4 (amended): the validity checks do run in the fixed order
existence/version → framework compatibility → attribute presence → attribute
clash, the first failing check short-circuiting the rest, and no catalog
write happens unless all checks pass (a mutated catalog implies the manual
install succeeded); however, when installing from a zip the archive is
extracted to a temporary directory before the checks run. -/
theorem C4_checkOrder_amended (env : Env) (c : Catalog) (d : PluginData) (p q : PluginData)
    (s : String) :
    (findByName c d.name = some p → p.version = d.version →
      checkCompatibility env c d = .error (.alreadyExists d.name d.version))
    ∧ (findByName c d.name = some p → d.version < p.version →
      checkCompatibility env c d = .error (.newerInstalled d.name))
    ∧ (versionGate (findByName c d.name) d.name d.version = .ok () →
       env.satisfies env.fwVersion d.framework = false →
      checkCompatibility env c d = .error (.incompatFramework d.name d.version))
    ∧ (versionGate (findByName c d.name) d.name d.version = .ok () →
       env.satisfies env.fwVersion d.framework = true →
       strTruthy d.targetAttribute = false →
      checkCompatibility env c d = .error (.attrMissing d.name))
    ∧ (versionGate (findByName c d.name) d.name d.version = .ok () →
       env.satisfies env.fwVersion d.framework = true →
       strTruthy d.targetAttribute = true →
       c.find? (fun r => r.targetAttribute == d.targetAttribute && r.name != d.name) = some q →
      checkCompatibility env c d = .error (.attrClash q.name (d.targetAttribute.getD "")))
    ∧ (versionGate (findByName c d.name) d.name d.version = .ok () →
       env.satisfies env.fwVersion d.framework = true →
       strTruthy d.targetAttribute = true →
       c.find? (fun r => r.targetAttribute == d.targetAttribute && r.name != d.name) = none →
      checkCompatibility env c d = .ok ())
    ∧ ((manualInstallFrom env c s).2.2 ≠ c →
      ∃ dd, (manualInstallFrom env c s).1 = .ok dd) := by
  refine ⟨?_, ?_, ?_, ?_, ?_, ?_, ?_⟩
  · exact fun h hv => checkCompatibility_eqVersion env c d p h hv
  · exact fun h hv => checkCompatibility_newer env c d p h hv
  · intro hvg hsat
    rw [checkCompatibility_gatePass env c d hvg]
    unfold postVersionChecks
    rw [if_pos hsat]
  · intro hvg hsat hattr
    rw [checkCompatibility_gatePass env c d hvg]
    unfold postVersionChecks
    rw [if_neg (by simp [hsat]), if_pos hattr]
  · intro hvg hsat hattr hfind
    rw [checkCompatibility_gatePass env c d hvg]
    unfold postVersionChecks
    rw [if_neg (by simp [hsat]), if_neg (by simp [hattr])]
    simp only [hfind]
  · intro hvg hsat hattr hfind
    rw [checkCompatibility_gatePass env c d hvg]
    unfold postVersionChecks
    rw [if_neg (by simp [hsat]), if_neg (by simp [hattr])]
    simp only [hfind]
  · intro hne
    rcases manualInstallFrom_shape env c s with ⟨h1, _⟩ | h
    · exact absurd h1 hne
    · exact h

/-- C4 witness: the amended order statement at a concrete catalog where the
first check fires. -/
theorem C4_amended_witness :
    checkCompatibility baseEnv [recA] recA = .error (.alreadyExists "adapt-a" 2) :=
  (C4_checkOrder_amended baseEnv [recA] recA recA recA "x").1 (by decide) (by decide)

/-! ## C10 -/

/-- C10 (confirmed): whenever `manualInstallPlugin` throws — at unzip,
directory/metadata read, compatibility check, or move/copy — the catalog is
left exactly as it was and no catalog insert or replace occurs in the
trace; and the result (in particular the original error) is independent of
whether the temporary-file cleanup itself fails (`removeOk` oracle). -/
theorem C10_manualInstallAtomic (env : Env) (c : Catalog) (zipPath : String)
    (opts : ManualOpts) :
    (∀ e, (manualInstallPlugin env c zipPath opts).1 = .error e →
      (manualInstallPlugin env c zipPath opts).2.2 = c
      ∧ writtenDocs (manualInstallPlugin env c zipPath opts).2.1 = [])
    ∧ (∀ rm, (manualInstallPlugin { env with removeOk := rm } c zipPath opts).1 =
        (manualInstallPlugin env c zipPath opts).1) := by
  constructor
  · intro e
    unfold manualInstallPlugin
    rcases hb : manualInstallBody env c zipPath opts with ⟨res, effs, c2⟩
    rcases manualInstallBody_shape env c zipPath opts with ⟨h1, h2⟩ | ⟨d, hok⟩
    · rw [hb] at h1 h2
      cases res with
      | ok d => intro he; exact absurd he (by simp)
      | error e2 =>
        intro he
        by_cases hz : opts.isZip = true
        · simp only [hz, if_pos rfl]
          refine ⟨h1, ?_⟩
          show writtenDocs (effs ++ manualCleanup env zipPath) = []
          unfold writtenDocs at h2 ⊢
          rw [List.filterMap_append, h2]
          have hcl := writtenDocs_manualCleanup env zipPath
          unfold writtenDocs at hcl
          rw [hcl]
          rfl
        · have hz' : opts.isZip = false := by
            cases hzz : opts.isZip
            · rfl
            · exact absurd hzz hz
          simp only [hz']
          exact ⟨h1, h2⟩
    · rw [hb] at hok
      cases res with
      | ok d2 => intro he; exact absurd he (by simp)
      | error e2 => exact absurd hok (by simp)
  · intro rm
    have hbe : manualInstallBody { env with removeOk := rm } c zipPath opts =
        manualInstallBody env c zipPath opts := rfl
    unfold manualInstallPlugin
    rw [hbe]
    rcases hb : manualInstallBody env c zipPath opts with ⟨res, effs, c2⟩
    cases res with
    | ok d => rfl
    | error e2 =>
      by_cases hz : opts.isZip = true
      · simp [hz]
      · have hz' : opts.isZip = false := by
          cases hzz : opts.isZip
          · rfl
          · exact absurd hzz hz
        simp [hz']

/-- C10 witness: the atomicity statement at the concrete failing zip install
of `envC4` (which throws `ALREADY_EXISTS` after unzipping). -/
theorem C10_witness :
    (manualInstallPlugin envC4 [recA] "/up/plug.zip" ⟨true⟩).2.2 = [recA]
    ∧ writtenDocs (manualInstallPlugin envC4 [recA] "/up/plug.zip" ⟨true⟩).2.1 = [] :=
  (C10_manualInstallAtomic envC4 [recA] "/up/plug.zip" ⟨true⟩).1
    (.alreadyExists "adapt-a" 2) (by decide)

/-! ## Counting lemmas for the catalog -/

lemma addType_name (d : PluginData) : (addType d).name = d.name := by
  unfold addType
  split <;> rfl

lemma addType_isLocalInstall (d : PluginData) :
    (addType d).isLocalInstall = d.isLocalInstall := by
  unfold addType
  split <;> rfl

lemma countName_cons (r : PluginData) (rs : Catalog) (n : String) :
    countName (r :: rs) n = (if r.name = n then 1 else 0) + countName rs n := by
  unfold countName
  rw [List.filter_cons]
  by_cases h : r.name = n
  · simp [h]
    omega
  · simp [h]

lemma countName_append (c1 c2 : Catalog) (n : String) :
    countName (c1 ++ c2) n = countName c1 n + countName c2 n := by
  unfold countName
  rw [List.filter_append, List.length_append]

lemma findByName_none_countName (c : Catalog) (n : String) (h : findByName c n = none) :
    countName c n = 0 := by
  unfold findByName at h
  rw [List.find?_eq_none] at h
  unfold countName
  rw [List.filter_eq_nil_iff.mpr h]
  rfl

lemma countName_pos_of_findByName_some (c : Catalog) (n : String) (p : PluginData)
    (h : findByName c n = some p) : 1 ≤ countName c n := by
  unfold findByName at h
  have hmem : p ∈ c := List.mem_of_find?_eq_some h
  have hp := List.find?_some h
  have : p ∈ c.filter (fun r => r.name == n) := List.mem_filter.mpr ⟨hmem, hp⟩
  have := List.length_pos_of_mem this
  unfold countName
  omega

lemma countName_replaceByName (c : Catalog) (m : String) (d : PluginData) (hd : d.name = m) :
    ∀ n, countName (replaceByName c m d) n = countName c n := by
  induction c with
  | nil => intro n; rfl
  | cons r rs ih =>
    intro n
    unfold replaceByName
    by_cases h : r.name = m
    · rw [if_pos h, countName_cons, countName_cons, hd, h]
    · rw [if_neg h, countName_cons, countName_cons, ih n]

lemma insertToDatabase_countName (c : Catalog) (d : PluginData)
    (h : countName c d.name ≤ 1) :
    countName (insertToDatabase c d).2 d.name = 1 := by
  unfold insertToDatabase
  cases hf : findByName c d.name with
  | none =>
    show countName (c ++ [d]) d.name = 1
    rw [countName_append, findByName_none_countName c d.name hf, countName_cons]
    simp [countName]
  | some p =>
    show countName (replaceByName c d.name d) d.name = 1
    rw [countName_replaceByName c d.name d rfl]
    have h1 := countName_pos_of_findByName_some c d.name p hf
    omega

/-! ## C5 -/

/-- Raw adapt-cli result object for installing `adapt-b@1`. -/
def rawB : PluginData :=
  { id := "2", name := "adapt-b", version := 1, type := some "component", keys := [],
    framework := some "^5", targetAttribute := some "_b", isLocalInstall := none }

/-- Environment whose CLI `install` task succeeds for `adapt-b@1`. -/
def envC5 : Env :=
  { baseEnv with cliInstall := fun s =>
      if s = "adapt-b@1" then .ok rawB else .error (.cliFailure "unexpected") }

/-- C5 (confirmed): `insertToDatabase` is an upsert by name — it replaces
when a record with the name exists and inserts otherwise — and running the
single-plugin registry install twice with identical inputs (the CLI
returning the same data both times) leaves exactly one catalog record with
that name, given the unique name index (at most one record per name in the
starting catalog). -/
theorem C5_upsertIdempotent (env : Env) (c : Catalog) (plugin version : String)
    (raw : PluginData)
    (hcli : env.cliInstall (pluginStrOf plugin version) = .ok raw)
    (hc : countName c raw.name ≤ 1) :
    (∀ d p, findByName c d.name = some p →
      (insertToDatabase c d).2 = replaceByName c d.name d)
    ∧ (∀ d, findByName c d.name = none → (insertToDatabase c d).2 = c ++ [d])
    ∧ countName
        (installPlugin env (installPlugin env c plugin version).2.2 plugin version).2.2
        raw.name = 1 := by
  refine ⟨?_, ?_, ?_⟩
  · intro d p hf
    unfold insertToDatabase
    rw [hf]
  · intro d hf
    unfold insertToDatabase
    rw [hf]
  · have hstep : ∀ cc : Catalog, (installPlugin env cc plugin version).2.2 =
        (insertToDatabase cc { addType raw with isLocalInstall := some false }).2 := by
      intro cc
      simp only [installPlugin]
      rw [hcli]
    have hdn : ({ addType raw with isLocalInstall := some false } : PluginData).name =
        raw.name := addType_name raw
    rw [hstep, hstep]
    have first :
        countName (insertToDatabase c { addType raw with isLocalInstall := some false }).2
          ({ addType raw with isLocalInstall := some false } : PluginData).name = 1 :=
      insertToDatabase_countName c _ (by rw [hdn]; exact hc)
    have second := insertToDatabase_countName
      (insertToDatabase c { addType raw with isLocalInstall := some false }).2
      { addType raw with isLocalInstall := some false } (le_of_eq first)
    rw [← hdn]
    exact second

/-- C5 witness: two successive installs of `adapt-b@1` into an empty catalog
leave exactly one `adapt-b` record. -/
theorem C5_witness :
    countName
      (installPlugin envC5 (installPlugin envC5 [] "adapt-b" "1").2.2 "adapt-b" "1").2.2
      "adapt-b" = 1 :=
  (C5_upsertIdempotent envC5 [] "adapt-b" "1" rawB (by decide) (by decide)).2.2

/-! ## Lemmas about the managed-dependency scan -/

lemma scanDeps_queue_absent (env : Env) (dbp : String → Option PluginData)
    (name version : String) (hn : dbp name = none) :
    ∀ deps : List (String × String), (name, version) ∈ deps →
      (name, version) ∈ (scanDeps env dbp deps).1 := by
  intro deps
  induction deps with
  | nil => intro h; cases h
  | cons nv rest ih =>
    rcases nv with ⟨m, v⟩
    intro hmem
    unfold scanDeps
    rcases List.mem_cons.mp hmem with heq | hmem2
    · injection heq with h1 h2
      subst h1
      subst h2
      simp only [hn]
      exact List.mem_cons_self _ _
    · cases hd : dbp m with
      | none => simp only [hd]; exact List.mem_cons_of_mem _ (ih hmem2)
      | some p =>
        cases hj : env.readJson (bowerPath env p m) with
        | ok q => simp only [hd, hj]; exact ih hmem2
        | error e => simp only [hd, hj]; exact List.mem_cons_of_mem _ (ih hmem2)

lemma scanDeps_queue_unreadable (env : Env) (dbp : String → Option PluginData)
    (name : String) (p : PluginData) (err : CPError) (hp : dbp name = some p)
    (hj : env.readJson (bowerPath env p name) = .error err) :
    ∀ (deps : List (String × String)) (version : String), (name, version) ∈ deps →
      (name, toString p.version) ∈ (scanDeps env dbp deps).1 := by
  intro deps
  induction deps with
  | nil => intro v h; cases h
  | cons nv rest ih =>
    rcases nv with ⟨m, v0⟩
    intro v hmem
    unfold scanDeps
    rcases List.mem_cons.mp hmem with heq | hmem2
    · injection heq with h1 h2
      subst h1
      simp only [hp, hj]
      exact List.mem_cons_self _ _
    · cases hd : dbp m with
      | none => simp only [hd]; exact List.mem_cons_of_mem _ (ih v hmem2)
      | some p2 =>
        cases hj2 : env.readJson (bowerPath env p2 m) with
        | ok q => simp only [hd, hj2]; exact ih v hmem2
        | error e => simp only [hd, hj2]; exact List.mem_cons_of_mem _ (ih v hmem2)

lemma scanDeps_not_queued (env : Env) (dbp : String → Option PluginData)
    (name : String) (p q : PluginData) (hp : dbp name = some p)
    (hj : env.readJson (bowerPath env p name) = .ok q) :
    ∀ (deps : List (String × String)) (v : String),
      (name, v) ∉ (scanDeps env dbp deps).1 := by
  intro deps
  induction deps with
  | nil => intro v h; cases h
  | cons nv rest ih =>
    rcases nv with ⟨m, v0⟩
    intro v
    unfold scanDeps
    by_cases hm : m = name
    · subst hm
      simp only [hp, hj]
      exact ih v
    · cases hd : dbp m with
      | none =>
        simp only [hd]
        intro hmm
        rcases List.mem_cons.mp hmm with heq | hmem2
        · injection heq with h1 h2; exact hm h1.symm
        · exact ih v hmem2
      | some p2 =>
        cases hj2 : env.readJson (bowerPath env p2 m) with
        | ok q2 => simp only [hd, hj2]; exact ih v
        | error e =>
          simp only [hd, hj2]
          intro hmm
          rcases List.mem_cons.mp hmm with heq | hmem2
          · injection heq with h1 h2; exact hm h1.symm
          · exact ih v hmem2

lemma scanDeps_warn (env : Env) (dbp : String → Option PluginData)
    (name : String) (p q : PluginData) (hp : dbp name = some p)
    (hj : env.readJson (bowerPath env p name) = .ok q) (hv : q.version ≠ p.version) :
    ∀ (deps : List (String × String)) (version : String), (name, version) ∈ deps →
      Effect.logWarn (mismatchMsg name) ∈ (scanDeps env dbp deps).2 := by
  intro deps
  induction deps with
  | nil => intro v h; cases h
  | cons nv rest ih =>
    rcases nv with ⟨m, v0⟩
    intro v hmem
    unfold scanDeps
    rcases List.mem_cons.mp hmem with heq | hmem2
    · injection heq with h1 h2
      subst h1
      simp only [hp, hj, if_pos hv]
      exact List.mem_cons_self _ _
    · cases hd : dbp m with
      | none => simp only [hd]; exact ih v hmem2
      | some p2 =>
        cases hj2 : env.readJson (bowerPath env p2 m) with
        | ok q2 =>
          simp only [hd, hj2]
          exact List.mem_append_right _ (ih v hmem2)
        | error e => simp only [hd, hj2]; exact ih v hmem2

/-! ## C6 -/

/-- The on-disk `bower.json` of the framework copy of `adapt-a`, at version
`3` (differing from the catalogued version `2`). -/
def rawDisk : PluginData := { rawA1 with version := 3 }

/-- Environment declaring `adapt-a` in `adapt.json` and serving the
version-`3` framework copy of `adapt-a`. -/
def envC6 : Env :=
  { baseEnv with
      adaptDeps := [("adapt-a", "1.0.0")],
      readJson := fun s =>
        if s = "fw/src/extension/adapt-a/bower.json" then .ok rawDisk
        else .error (.fsFailure "noent") }

/-- C6: the claim says a plugin whose on-disk version differs from the
recorded version is queued for (re)install during startup reconciliation.
Counterexample: `adapt-a` is catalogued at version `2` while its framework
copy is at version `3`; `installPlugins` merely logs the mismatch warning —
no install is queued (the trace has no CLI install and the catalog is
untouched). -/
theorem C6_counterexample :
    installPlugins envC6 [recA] = ([.logWarn (mismatchMsg "adapt-a")], [recA]) := by
  decide

/-- C6 (amended): during the startup scan of `adapt.json` dependencies, a
declared plugin missing from the catalog is queued with its declared
version, and one whose framework-directory `bower.json` cannot be read is
queued with the recorded version; but a plugin whose framework copy IS
readable is never queued — a version mismatch between disk and catalog only
produces the "please reinstall" warning. -/
theorem C6_reconcileQueue_amended (env : Env) (c : Catalog) (name version : String)
    (p q : PluginData) (err : CPError) :
    ((name, version) ∈ env.adaptDeps → dbPluginsMap c name = none →
      (name, version) ∈ (scanDeps env (dbPluginsMap c) env.adaptDeps).1)
    ∧ ((name, version) ∈ env.adaptDeps → dbPluginsMap c name = some p →
       env.readJson (bowerPath env p name) = .error err →
      (name, toString p.version) ∈ (scanDeps env (dbPluginsMap c) env.adaptDeps).1)
    ∧ (dbPluginsMap c name = some p → env.readJson (bowerPath env p name) = .ok q →
      ∀ v, (name, v) ∉ (scanDeps env (dbPluginsMap c) env.adaptDeps).1)
    ∧ ((name, version) ∈ env.adaptDeps → dbPluginsMap c name = some p →
       env.readJson (bowerPath env p name) = .ok q → q.version ≠ p.version →
      Effect.logWarn (mismatchMsg name) ∈ (scanDeps env (dbPluginsMap c) env.adaptDeps).2) := by
  refine ⟨?_, ?_, ?_, ?_⟩
  · intro hmem hn
    exact scanDeps_queue_absent env (dbPluginsMap c) name version hn env.adaptDeps hmem
  · intro hmem hp hj
    exact scanDeps_queue_unreadable env (dbPluginsMap c) name p err hp hj
      env.adaptDeps version hmem
  · intro hp hj v
    exact scanDeps_not_queued env (dbPluginsMap c) name p q hp hj env.adaptDeps v
  · intro hmem hp hj hv
    exact scanDeps_warn env (dbPluginsMap c) name p q hp hj hv env.adaptDeps version hmem

/-- C6 witness: the amended statement at the concrete mismatched catalog —
the warning is emitted and `adapt-a` is not queued. -/
theorem C6_amended_witness :
    Effect.logWarn (mismatchMsg "adapt-a") ∈
      (scanDeps envC6 (dbPluginsMap [recA]) envC6.adaptDeps).2
    ∧ ("adapt-a", "2") ∉ (scanDeps envC6 (dbPluginsMap [recA]) envC6.adaptDeps).1 :=
  ⟨(C6_reconcileQueue_amended envC6 [recA] "adapt-a" "1.0.0" recA rawDisk
      (.fsFailure "noent")).2.2.2 (by decide) (by decide) (by decide) (by decide),
    (C6_reconcileQueue_amended envC6 [recA] "adapt-a" "1.0.0" recA rawDisk
      (.fsFailure "noent")).2.2.1 (by decide) (by decide) "2"⟩

/-! ## Effect classification and count monotonicity for `installPlugins` -/

lemma insertToDatabase_noDelete (c : Catalog) (d : PluginData) :
    ∀ e ∈ (insertToDatabase c d).1, isDbDelete e = false := by
  intro e he
  unfold insertToDatabase at he
  split at he
  · rw [List.mem_singleton.mp he]; rfl
  · rw [List.mem_singleton.mp he]; rfl

lemma installPlugin_split (env : Env) (c : Catalog) (pl v : String) :
    (installPlugin env c pl v).2.1 = [.cliInstall (pluginStrOf pl v)]
      ∧ (installPlugin env c pl v).2.2 = c
    ∨ ∃ raw, (installPlugin env c pl v).2.1 =
        .cliInstall (pluginStrOf pl v) ::
          (insertToDatabase c { addType raw with isLocalInstall := some false }).1
      ∧ (installPlugin env c pl v).2.2 =
          (insertToDatabase c { addType raw with isLocalInstall := some false }).2 := by
  simp only [installPlugin]
  cases env.cliInstall (pluginStrOf pl v) with
  | error e => left; exact ⟨rfl, rfl⟩
  | ok raw => right; exact ⟨_, rfl, rfl⟩

lemma installPlugin_noDelete (env : Env) (c : Catalog) (pl v : String) :
    ∀ e ∈ (installPlugin env c pl v).2.1, isDbDelete e = false := by
  intro e he
  rcases installPlugin_split env c pl v with ⟨h1, _⟩ | ⟨d, h1, _⟩
  · rw [h1] at he
    rw [List.mem_singleton.mp he]
    rfl
  · rw [h1] at he
    rcases List.mem_cons.mp he with heq | he2
    · rw [heq]; rfl
    · exact insertToDatabase_noDelete c _ e he2

lemma installPlugin_count_mono (env : Env) (c : Catalog) (pl v : String) (n : String) :
    countName c n ≤ countName (installPlugin env c pl v).2.2 n := by
  rcases installPlugin_split env c pl v with ⟨_, h2⟩ | ⟨d, _, h2⟩
  · rw [h2]
  · rw [h2]
    unfold insertToDatabase
    split
    · rw [countName_replaceByName c _ _ rfl n]
    · rw [countName_append]
      exact Nat.le_add_right _ _

lemma installQueued_noDelete (env : Env) (l : List (String × String)) :
    ∀ (c : Catalog), ∀ e ∈ (installQueued env c l).1, isDbDelete e = false := by
  induction l with
  | nil => intro c e he; cases he
  | cons nv rest ih =>
    rcases nv with ⟨m, v⟩
    intro c e he
    unfold installQueued at he
    rcases List.mem_append.mp he with h1 | h2
    · rcases List.mem_append.mp h1 with h3 | h4
      · exact installPlugin_noDelete env c m v e h3
      · revert h4
        split
        · intro h4; rw [List.mem_singleton.mp h4]; rfl
        · split
          · intro h4; cases h4
          · intro h4; rw [List.mem_singleton.mp h4]; rfl
    · exact ih _ e h2

lemma installQueued_count_mono (env : Env) (l : List (String × String)) :
    ∀ (c : Catalog) (n : String),
      countName c n ≤ countName (installQueued env c l).2 n := by
  induction l with
  | nil => intro c n; exact le_refl _
  | cons nv rest ih =>
    rcases nv with ⟨m, v⟩
    intro c n
    exact le_trans (installPlugin_count_mono env c m v n)
      (ih (installPlugin env c m v).2.2 n)

lemma scanDeps_noDelete (env : Env) (dbp : String → Option PluginData)
    (deps : List (String × String)) :
    ∀ e ∈ (scanDeps env dbp deps).2, isDbDelete e = false := by
  induction deps with
  | nil => intro e he; cases he
  | cons nv rest ih =>
    rcases nv with ⟨m, v⟩
    intro e he
    rcases hsd : scanDeps env dbp rest with ⟨ti, effs⟩
    have ihe : ∀ x ∈ effs, isDbDelete x = false := by
      intro x hx
      apply ih
      rw [hsd]
      exact hx
    unfold scanDeps at he
    rw [hsd] at he
    cases hd : dbp m with
    | none =>
      simp only [hd] at he
      exact ihe e he
    | some p =>
      cases hj : env.readJson (bowerPath env p m) with
      | error e2 =>
        simp only [hd, hj] at he
        exact ihe e he
      | ok q =>
        simp only [hd, hj] at he
        rcases List.mem_append.mp he with h1 | h2
        · revert h1
          split
          · intro h1; rw [List.mem_singleton.mp h1]; rfl
          · intro h1; cases h1
        · exact ihe e h2

lemma reconcileLocalPlugin_noDelete (env : Env) (c : Catalog) (p : PluginData) :
    ∀ e ∈ reconcileLocalPlugin env c p, isDbDelete e = false := by
  intro e he
  simp only [reconcileLocalPlugin] at he
  revert he
  split
  · intro he; rw [List.mem_singleton.mp he]; rfl
  · split
    · split
      · intro he; cases he
      · intro he; rw [List.mem_singleton.mp he]; rfl
    · split
      · intro he; rw [List.mem_singleton.mp he]; rfl
      · intro he
        rcases List.mem_cons.mp he with heq | he2
        · rw [heq]; rfl
        · revert he2
          split
          · intro he2; cases he2
          · intro he2; rw [List.mem_singleton.mp he2]; rfl

lemma installPlugins_noDelete (env : Env) (c : Catalog) :
    ∀ e ∈ (installPlugins env c).1, isDbDelete e = false := by
  intro e he
  simp only [installPlugins] at he
  rcases List.mem_append.mp he with h1 | hC
  · rcases List.mem_append.mp h1 with hA | hB
    · exact scanDeps_noDelete env (dbPluginsMap c) env.adaptDeps e hA
    · rcases List.mem_flatten.mp hB with ⟨l, hl, hel⟩
      rcases List.mem_map.mp hl with ⟨p, _, rfl⟩
      exact reconcileLocalPlugin_noDelete env c p e hel
  · exact installQueued_noDelete env _ c e hC

/-! ## C8 -/

/-- A catalogued local-install plugin `adapt-L@2`. -/
def recL : PluginData :=
  { id := "7", name := "adapt-L", version := 2, type := some "extension", keys := [],
    framework := some "^5", targetAttribute := some "_l", isLocalInstall := some true }

/-- Raw adapt-cli result for a registry install of `adapt-L@2`. -/
def rawL : PluginData :=
  { id := "8", name := "adapt-L", version := 2, type := some "extension", keys := [],
    framework := some "^5", targetAttribute := some "_l", isLocalInstall := none }

/-- Environment where `adapt-L` is declared in `adapt.json`, its framework
copy is unreadable, its local cache is missing, and the registry install of
`adapt-L@2` succeeds. -/
def envC8 : Env :=
  { baseEnv with
      adaptDeps := [("adapt-L", "1.0.0")],
      pathExists := fun _ => false,
      cliInstall := fun s =>
        if s = "adapt-L@2" then .ok rawL else .error (.cliFailure "unexpected") }

/-- The record the corrective registry install writes for `adapt-L`. -/
def dL8 : PluginData := { rawL with isLocalInstall := some false }

/-- C8: the claim says that for a local-install record with a missing cache,
reconciliation only reports an error and attempts no automatic corrective
install for that plugin.  Counterexample: `adapt-L` (isLocalInstall = true,
cache missing — `pathExists` is false) is also declared in `adapt.json` and
its framework copy is unreadable, so the managed-dependency phase queues it
and `installPlugins` runs an automatic CLI registry install for it,
replacing the record (now with `isLocalInstall = false`) alongside the
"please reinstall" error log. -/
theorem C8_counterexample :
    installPlugins envC8 [recL] =
      ([.logError (missingSrcMsg "adapt-L"),
        .cliInstall "adapt-L@2", .dbReplaceByName "adapt-L" dL8,
        .logDebug "successfully installed adapt-L@2"],
       [dL8]) := by
  decide

/-- C8 (amended): the local-reconciliation branch itself, on a missing
cache, only logs the "please reinstall" error (no delete, no copy, no
install from that branch); `installPlugins` as a whole never deletes a
catalog record and never decreases the number of records carrying any name;
but a plugin that is additionally declared in `adapt.json` with an
unreadable framework copy is queued by the managed-dependency phase, whose
registry install replaces the record. -/
theorem C8_missingCache_amended (env : Env) (c : Catalog) (p : PluginData) :
    (env.pathExists (env.locaPluginsDir ++ "/" ++ p.name) = false →
      reconcileLocalPlugin env c p = [.logError (missingSrcMsg p.name)])
    ∧ (∀ e ∈ (installPlugins env c).1, isDbDelete e = false)
    ∧ (∀ n, countName c n ≤ countName (installPlugins env c).2 n) := by
  refine ⟨?_, installPlugins_noDelete env c, ?_⟩
  · intro hpe
    simp [reconcileLocalPlugin, hpe]
  · intro n
    simp only [installPlugins]
    exact installQueued_count_mono env
      (scanDeps env (dbPluginsMap c) env.adaptDeps).1 c n

/-- C8 witness: the amended statement at the concrete missing-cache record. -/
theorem C8_amended_witness :
    reconcileLocalPlugin envC8 [recL] recL = [.logError (missingSrcMsg "adapt-L")] :=
  (C8_missingCache_amended envC8 [recL] recL).1 (by decide)

/-! ## Written-document lemmas -/

lemma insertToDatabase_writtenDocs (c : Catalog) (d : PluginData) :
    writtenDocs (insertToDatabase c d).1 = [d] := by
  unfold insertToDatabase
  split <;> rfl

lemma filterMap_writtenDoc_insert (cc : Catalog) (dd : PluginData) :
    List.filterMap writtenDoc (insertToDatabase cc dd).1 = [dd] := by
  have h := insertToDatabase_writtenDocs cc dd
  unfold writtenDocs at h
  exact h

lemma manualInstallFrom_writes (env : Env) (c : Catalog) (s : String) :
    writtenDocs (manualInstallFrom env c s).2.1 = [] ∨
    ∃ raw, writtenDocs (manualInstallFrom env c s).2.1 =
      [{ addType raw with isLocalInstall := some true }] := by
  rcases hdir : env.readdir s with e1 | contents
  · left
    unfold manualInstallFrom
    rw [hdir]
    rfl
  · rcases hjson : env.readJson
        ((if contents.length = 1 then s ++ "/" ++ contents.headD "" else s) ++ "/bower.json")
      with e2 | raw
    · left
      unfold manualInstallFrom
      rw [hdir]
      simp only [hjson]
      rfl
    · rcases hchk : checkCompatibility env c { addType raw with isLocalInstall := some true }
        with e3 | u3
      · left
        rw [manualInstallFrom_checkFail env c s contents raw e3 hdir hjson hchk]
        rfl
      · unfold manualInstallFrom
        rw [hdir]
        simp only [hjson, hchk]
        split
        · left
          unfold writtenDocs
          split <;> rfl
        · split
          · left
            unfold writtenDocs
            rw [List.filterMap_append]
            split <;> rfl
          · right
            refine ⟨raw, ?_⟩
            unfold writtenDocs
            rw [List.filterMap_append, List.filterMap_append, filterMap_writtenDoc_insert]
            split <;> rfl

lemma manualInstallBody_writes (env : Env) (c : Catalog) (z : String) (o : ManualOpts) :
    writtenDocs (manualInstallBody env c z o).2.1 = [] ∨
    ∃ raw, writtenDocs (manualInstallBody env c z o).2.1 =
      [{ addType raw with isLocalInstall := some true }] := by
  obtain ⟨zf⟩ := o
  cases zf with
  | false => exact manualInstallFrom_writes env c z
  | true =>
    rcases hu : env.unzip z with e1 | up
    · left
      unfold manualInstallBody
      rw [hu]
      rfl
    · rcases manualInstallFrom_writes env c (up ++ "/" ++ env.basename z) with h | ⟨raw, h⟩
      · left
        unfold manualInstallBody
        rw [hu]
        exact h
      · right
        refine ⟨raw, ?_⟩
        unfold manualInstallBody
        rw [hu]
        exact h

lemma manualInstallPlugin_writes (env : Env) (c : Catalog) (z : String) (o : ManualOpts) :
    ∀ d ∈ writtenDocs (manualInstallPlugin env c z o).2.1, d.isLocalInstall = some true := by
  obtain ⟨zf⟩ := o
  have hb := manualInstallBody_writes env c z ⟨zf⟩
  rcases hres : manualInstallBody env c z ⟨zf⟩ with ⟨res, effs, c2⟩
  rw [hres] at hb
  have hwd : ∀ x ∈ writtenDocs effs, x.isLocalInstall = some true := by
    intro x hx
    rcases hb with h | ⟨raw, h⟩
    · change writtenDocs effs = [] at h
      rw [h] at hx
      cases hx
    · change writtenDocs effs = [{ addType raw with isLocalInstall := some true }] at h
      rw [h] at hx
      rw [List.mem_singleton.mp hx]
  intro d hd
  revert hd
  unfold manualInstallPlugin
  rw [hres]
  cases res with
  | ok dd => exact fun hd => hwd d hd
  | error e =>
    cases zf with
    | false => exact fun hd => hwd d hd
    | true =>
      intro hd
      change d ∈ List.filterMap writtenDoc (effs ++ manualCleanup env z) at hd
      rw [List.filterMap_append] at hd
      rcases List.mem_append.mp hd with h1 | h2
      · exact hwd d h1
      · have hcl := writtenDocs_manualCleanup env z
        unfold writtenDocs at hcl
        rw [hcl] at h2
        cases h2

/-! ## C9 -/

/-- Raw adapt-cli result of the `update` task for `adapt-a` (version `3`);
like every CLI result object it carries no `isLocalInstall` property. -/
def rawU : PluginData :=
  { id := "11", name := "adapt-a", version := 3, type := some "extension", keys := [],
    framework := some "^5", targetAttribute := some "_a", isLocalInstall := none }

/-- The catalogued `adapt-a` record marked as a local install. -/
def recLocalA : PluginData := { recA with isLocalInstall := some true }

/-- Environment whose CLI `update` task succeeds for `adapt-a`. -/
def envC9 : Env :=
  { baseEnv with cliUpdate := fun n =>
      if n = "adapt-a" then .ok rawU else .error (.cliFailure "unexpected") }

/-- C9: the claim says every record written by the registry path has
`isLocalInstall = false`, every record written by the archive path has
`isLocalInstall = true`, and no operation writes a record without the flag
set by its install source.  Counterexample: `updatePlugin` on the
local-install record `adapt-a` replaces it with the CLI `update` result,
which carries no `isLocalInstall` property at all — the written record's
flag is unset (`none`), losing the local-install marker. -/
theorem C9_counterexample :
    updatePlugin envC9 [recLocalA] "1" =
      (.ok rawU, [.cliUpdate "adapt-a", .dbReplaceById "1" rawU],
        [{ rawU with id := "1" }])
    ∧ rawU.isLocalInstall = none := by
  constructor
  · decide
  · decide

/-- C9 (amended): every record written by `installPlugin` has
`isLocalInstall = some false` and every record written by
`manualInstallPlugin` has `isLocalInstall = some true`; `updatePlugin`,
however, replaces the record with the `addType`-tagged CLI result, whose
`isLocalInstall` is whatever the CLI returned (`addType` does not set it),
so the flag is not set by the install source on the update path. -/
theorem C9_isLocalInstallFlag_amended (env : Env) (c : Catalog) :
    (∀ pl v, ∀ d ∈ writtenDocs (installPlugin env c pl v).2.1,
      d.isLocalInstall = some false)
    ∧ (∀ z o, ∀ d ∈ writtenDocs (manualInstallPlugin env c z o).2.1,
      d.isLocalInstall = some true)
    ∧ (∀ id p raw, findById c id = some p → env.cliUpdate p.name = .ok raw →
      writtenDocs (updatePlugin env c id).2.1 = [addType raw]
      ∧ (addType raw).isLocalInstall = raw.isLocalInstall) := by
  refine ⟨?_, ?_, ?_⟩
  · intro pl v d hd
    rcases installPlugin_split env c pl v with ⟨h1, _⟩ | ⟨raw, h1, _⟩
    · rw [h1] at hd
      cases hd
    · rw [h1] at hd
      have hins := insertToDatabase_writtenDocs c
        { addType raw with isLocalInstall := some false }
      unfold writtenDocs at hins hd
      rw [List.filterMap_cons] at hd
      simp only [writtenDoc] at hd
      rw [hins] at hd
      rw [List.mem_singleton.mp hd]
  · exact fun z o => manualInstallPlugin_writes env c z o
  · intro id p raw hid hcli
    unfold updatePlugin
    simp only [hid, hcli]
    exact ⟨rfl, addType_isLocalInstall raw⟩

/-- C9 witness: the amended statement at the concrete update of the
local-install `adapt-a` record — the written document is the CLI result,
whose flag is unset. -/
theorem C9_amended_witness :
    writtenDocs (updatePlugin envC9 [recLocalA] "1").2.1 = [addType rawU]
    ∧ (addType rawU).isLocalInstall = rawU.isLocalInstall :=
  (C9_isLocalInstallFlag_amended envC9 [recLocalA]).2.2 "1" recLocalA rawU
    (by decide) (by decide)

end ContentPlugin
